import Mathlib

/-!
Verification of the SQLite trace recorder (`examples/sqlite_trace.py`).

The recorder instruments an aiohttp client session: every request lifecycle
callback inserts one row into the base `events` table and one row into a
kind-specific detail table, then commits.  We model:

* Python strings as lists of Unicode code points (`PyStr`);
* `json.dumps` applied to a list of header pairs (with the default
  `ensure_ascii=True` escaping) and the corresponding `json.loads` decoding;
* the SQLite connection as a record holding the schema, committed rows,
  pending (uncommitted) rows, the autoincrement counter, and a failure
  oracle deciding which low-level operation (execute / commit) raises;
* the per-request trace context and the five lifecycle handlers as explicit
  state-passing functions that additionally emit a log of abstract actions,
  so that ordering properties of a handler body can be stated.
-/

namespace STrace

/-- A Python string, modelled as its list of Unicode code points. -/
abbrev PyStr := List Nat

/-- A code point is a Unicode scalar value: below 0x110000 and not a
surrogate.  Lean and well-formed Python strings only carry such values. -/
def ScalarCP (c : Nat) : Prop := (c < 0xD800 ∨ 0xDFFF < c) ∧ c < 0x110000

instance (c : Nat) : Decidable (ScalarCP c) := by
  unfold ScalarCP
  exact inferInstance

/-- Lowercase hex digit character for a value below 16, as `json.dumps`
emits in `\uXXXX` escapes. -/
def hexDig (n : Nat) : Nat := if n < 10 then 0x30 + n else 0x57 + n

/-- The six-character escape sequence `\uXXXX` of a 16-bit value. -/
def uEsc (h : Nat) : List Nat :=
  [0x5C, 0x75, hexDig (h / 4096 % 16), hexDig (h / 256 % 16),
   hexDig (h / 16 % 16), hexDig (h % 16)]

/-- Escape of a single code point, following `json.dumps` with the default
`ensure_ascii=True`: `"` and `\` get a backslash, the usual control-character
shorthands are used, printable ASCII is kept verbatim, everything else
becomes `\uXXXX` (a surrogate pair for astral code points). -/
def escChar (c : Nat) : List Nat :=
  if c = 0x22 then [0x5C, 0x22]
  else if c = 0x5C then [0x5C, 0x5C]
  else if c = 0x08 then [0x5C, 0x62]
  else if c = 0x09 then [0x5C, 0x74]
  else if c = 0x0A then [0x5C, 0x6E]
  else if c = 0x0C then [0x5C, 0x66]
  else if c = 0x0D then [0x5C, 0x72]
  else if 0x20 ≤ c ∧ c ≤ 0x7E then [c]
  else if c < 0x10000 then uEsc c
  else uEsc (0xD800 + (c - 0x10000) / 0x400) ++ uEsc (0xDC00 + (c - 0x10000) % 0x400)

/-- Escape of a whole string. -/
def escape : PyStr → List Nat
  | [] => []
  | c :: s => escChar c ++ escape s

/-- Encoding of one header pair, as `json.dumps` renders a 2-tuple:
`["name", "value"]`. -/
def encPair (p : PyStr × PyStr) : List Nat :=
  [0x5B, 0x22] ++ escape p.1 ++ [0x22, 0x2C, 0x20, 0x22] ++ escape p.2 ++ [0x22, 0x5D]

/-- Encoding of the pairs after the first one, each preceded by the
`", "` item separator `json.dumps` uses by default. -/
def encRest : List (PyStr × PyStr) → List Nat
  | [] => []
  | p :: t => [0x2C, 0x20] ++ encPair p ++ encRest t

/-- `_serialize_headers`: `json.dumps(list(headers))` — a JSON array of
2-element arrays of strings. -/
def serialize_headers (hs : List (PyStr × PyStr)) : List Nat :=
  match hs with
  | [] => [0x5B, 0x5D]
  | p :: t => [0x5B] ++ encPair p ++ encRest t ++ [0x5D]

/-- Value of one hex digit character (`json.loads` accepts both cases). -/
def hexVal (c : Nat) : Option Nat :=
  if 0x30 ≤ c ∧ c ≤ 0x39 then some (c - 0x30)
  else if 0x61 ≤ c ∧ c ≤ 0x66 then some (c - 0x57)
  else if 0x41 ≤ c ∧ c ≤ 0x46 then some (c - 0x37)
  else none

/-- Modelled from the spec: after a high-surrogate `\uXXXX` escape the JSON
decoder looks for an immediately following low-surrogate escape.  Returns the
low surrogate value and the input after it (with a length fact recorded for
termination), or `none` when no such escape follows. -/
def tryLowSurr (l : List Nat) :
    Option (Nat × { r : List Nat // r.length + 6 = l.length }) :=
  match l with
  | 0x5C :: 0x75 :: a :: b :: c :: d :: r =>
    match hexVal a, hexVal b, hexVal c, hexVal d with
    | some ha, some hb, some hc, some hd =>
      if 0xDC00 ≤ 4096 * ha + 256 * hb + 16 * hc + hd ∧
          4096 * ha + 256 * hb + 16 * hc + hd < 0xE000 then
        some (4096 * ha + 256 * hb + 16 * hc + hd,
          ⟨r, by simp only [List.length_cons]⟩)
      else none
    | _, _, _, _ => none
  | _ => none

/-- Modelled from the spec: the decoding direction of the header
serialization ("decodable back into the same ordered pair list") is
performed by `json.loads`, which is not part of this repository.  This
parses the body of a JSON string literal up to and including the closing
quote, handling backslash escapes and `\uXXXX` (recombining surrogate
pairs), and rejecting raw control characters, as the JSON decoder does. -/
def parseStr : List Nat → Option (PyStr × List Nat)
  | [] => none
  | c :: rest =>
    if c = 0x22 then some ([], rest)
    else if c = 0x5C then
      match rest with
      | [] => none
      | e :: r2 =>
        if e = 0x22 then (parseStr r2).map (fun pr => (0x22 :: pr.1, pr.2))
        else if e = 0x5C then (parseStr r2).map (fun pr => (0x5C :: pr.1, pr.2))
        else if e = 0x2F then (parseStr r2).map (fun pr => (0x2F :: pr.1, pr.2))
        else if e = 0x62 then (parseStr r2).map (fun pr => (0x08 :: pr.1, pr.2))
        else if e = 0x66 then (parseStr r2).map (fun pr => (0x0C :: pr.1, pr.2))
        else if e = 0x6E then (parseStr r2).map (fun pr => (0x0A :: pr.1, pr.2))
        else if e = 0x72 then (parseStr r2).map (fun pr => (0x0D :: pr.1, pr.2))
        else if e = 0x74 then (parseStr r2).map (fun pr => (0x09 :: pr.1, pr.2))
        else if e = 0x75 then
          match r2 with
          | a :: b :: c2 :: d :: r3 =>
            match hexVal a, hexVal b, hexVal c2, hexVal d with
            | some ha, some hb, some hc, some hd =>
              if 0xD800 ≤ 4096 * ha + 256 * hb + 16 * hc + hd ∧
                  4096 * ha + 256 * hb + 16 * hc + hd < 0xDC00 then
                match tryLowSurr r3 with
                | some (h2, r4) =>
                  (parseStr r4.val).map (fun pr =>
                    ((0x10000 + 0x400 * (4096 * ha + 256 * hb + 16 * hc + hd - 0xD800) +
                      (h2 - 0xDC00)) :: pr.1, pr.2))
                | none => (parseStr r3).map (fun pr =>
                    ((4096 * ha + 256 * hb + 16 * hc + hd) :: pr.1, pr.2))
              else (parseStr r3).map (fun pr =>
                ((4096 * ha + 256 * hb + 16 * hc + hd) :: pr.1, pr.2))
            | _, _, _, _ => none
          | _ => none
        else none
    else if c < 0x20 then none
    else (parseStr rest).map (fun pr => (c :: pr.1, pr.2))
termination_by s => s.length
decreasing_by all_goals simp only [List.length_cons]; omega

/-- Modelled from the spec: parse one inner 2-element array
`["name", "value"]`, returning the pair and the rest of the input. -/
def parsePair (s : List Nat) : Option ((PyStr × PyStr) × List Nat) :=
  match s with
  | 0x5B :: 0x22 :: rest =>
    match parseStr rest with
    | none => none
    | some (n, r1) =>
      match r1 with
      | 0x2C :: 0x20 :: 0x22 :: r2 =>
        match parseStr r2 with
        | none => none
        | some (v, r3) =>
          match r3 with
          | 0x5D :: r4 => some ((n, v), r4)
          | _ => none
      | _ => none
  | _ => none

/-- Modelled from the spec: parse the remaining pairs, each preceded by
the `", "` separator; stops at anything else.  Fuelled for termination;
the caller passes the input length, which suffices. -/
def parsePairsRest (fuel : Nat) (s : List Nat) :
    Option (List (PyStr × PyStr) × List Nat) :=
  match fuel with
  | 0 => none
  | fuel + 1 =>
    match s with
    | 0x2C :: 0x20 :: rest =>
      match parsePair rest with
      | none => none
      | some (p, r1) =>
        match parsePairsRest fuel r1 with
        | none => none
        | some (ps, r2) => some (p :: ps, r2)
    | _ => some ([], s)

/-- Modelled from the spec: decode a serialized header string back into the
ordered list of (name, value) pairs, as `json.loads` does on the strings
`_serialize_headers` produces.  Returns `none` on any malformed input. -/
def deserialize_headers (s : List Nat) : Option (List (PyStr × PyStr)) :=
  match s with
  | 0x5B :: 0x5D :: tail => if tail = [] then some [] else none
  | 0x5B :: rest =>
    match parsePair rest with
    | none => none
    | some (p, r1) =>
      match parsePairsRest s.length r1 with
      | none => none
      | some (ps, r2) =>
        match r2 with
        | 0x5D :: tail => if tail = [] then some (p :: ps) else none
        | _ => none
  | _ => none

/-- One row of the base `events` table: autoincrement id, wall-clock
timestamp, correlation (request) id, and event kind. -/
structure EventRow where
  id : Nat
  ts : Rat
  request_id : String
  event_type : String
deriving DecidableEq

/-- A row of any of the six tables.  The constructor determines the table
the row lives in; detail rows carry the referencing `event_id` first. -/
inductive Row where
  | events (r : EventRow)
  | request_start (event_id : Nat) (method url : String) (headers : List Nat)
  | request_end (event_id : Nat) (status : Int) (reason : Option String)
      (headers : List Nat) (elapsed : Rat)
  | request_exception (event_id : Nat) (excText : String)
  | request_chunk (event_id chunk_index size : Nat) (payload : List Nat)
  | response_chunk (event_id chunk_index size : Nat) (payload : List Nat)
deriving DecidableEq

/-- The table a row belongs to. -/
def Row.table : Row → String
  | .events _ => "events"
  | .request_start .. => "request_start"
  | .request_end .. => "request_end"
  | .request_exception .. => "request_exception"
  | .request_chunk .. => "request_chunk"
  | .response_chunk .. => "response_chunk"

/-- The `event_id` reference carried by a detail row (for an `events` row,
its own id). -/
def Row.eventRef : Row → Nat
  | .events r => r.id
  | .request_start eid .. => eid
  | .request_end eid .. => eid
  | .request_exception eid .. => eid
  | .request_chunk eid .. => eid
  | .response_chunk eid .. => eid

/-- The SQLite connection.  `committed` are durably stored rows, `pending`
the rows inserted in the currently open transaction; `nextEventId` models
the autoincrement id of `events`; `failAt` is an oracle telling which
low-level operation (counted by `opCount`) raises a storage error and with
what message — it stands for I/O failures of the backend. -/
structure Conn where
  tables : List String
  committed : List Row
  pending : List Row
  nextEventId : Nat
  failAt : Nat → Option String
  opCount : Nat

/-- The six tables created by `init_sqlite`, in script order. -/
def tableNames : List String :=
  ["events", "request_start", "request_end", "request_exception",
   "request_chunk", "response_chunk"]

/-- `CREATE TABLE IF NOT EXISTS`: add the table only when absent. -/
def createTableIfNotExists (ts : List String) (name : String) : List String :=
  if name ∈ ts then ts else ts ++ [name]

/-- `init_sqlite`: run the schema script (six `CREATE TABLE IF NOT EXISTS`
statements) and commit.  `IF NOT EXISTS` never raises on an existing table,
so the whole call has no failure mode of its own. -/
def init_sqlite (c : Conn) : Conn :=
  { c with
    tables := tableNames.foldl createTableIfNotExists c.tables
    committed := c.committed ++ c.pending
    pending := [] }

/-- `conn.execute` for an `INSERT`: append the row to the open transaction,
unless the failure oracle makes this operation raise. -/
def Conn.execute (c : Conn) (r : Row) : Except String Unit × Conn :=
  match c.failAt c.opCount with
  | some e => (.error e, { c with opCount := c.opCount + 1 })
  | none => (.ok (), { c with pending := c.pending ++ [r], opCount := c.opCount + 1 })

/-- `conn.commit`: durably move the pending rows into `committed`, unless
the failure oracle makes this operation raise. -/
def Conn.commit (c : Conn) : Except String Unit × Conn :=
  match c.failAt c.opCount with
  | some e => (.error e, { c with opCount := c.opCount + 1 })
  | none =>
    (.ok (), { c with committed := c.committed ++ c.pending, pending := [],
                      opCount := c.opCount + 1 })

/-- `_insert_event`: insert one base-log row with the current timestamp and
return the generated row identifier (`cur.lastrowid`). -/
def insert_event (c : Conn) (request_id event_type : String) (now : Rat) :
    Except String Nat × Conn :=
  match c.execute (Row.events ⟨c.nextEventId, now, request_id, event_type⟩) with
  | (.ok _, c1) => (.ok c.nextEventId, { c1 with nextEventId := c.nextEventId + 1 })
  | (.error e, c1) => (.error e, c1)

/-- The per-request trace context (`SimpleNamespace` created by
`_ctx_factory`). -/
structure Ctx where
  request_id : String
  started : Rat
  request_chunk_index : Nat
  response_chunk_index : Nat
deriving DecidableEq

/-- `_ctx_factory`: fresh context with a newly generated correlation id
(`uuid.uuid4().hex`, supplied here by the environment), the current time as
start time, and both chunk counters at 0. -/
def ctx_factory (uuidHex : String) (now : Rat) : Ctx :=
  { request_id := uuidHex
    started := now
    request_chunk_index := 0
    response_chunk_index := 0 }

/-- Abstract actions a handler body performs, in program order, used to
state ordering properties.  `connOpen` and `connClose` never occur in this
system; they are listed so that their absence is expressible. -/
inductive Action where
  | insertRow (table : String)
  | commitTxn
  | incReqCounter
  | incRespCounter
  | connOpen
  | connClose
deriving DecidableEq

/-- Result of one handler invocation: the propagated outcome, the
connection and context afterwards, and the log of attempted actions. -/
abbrev HRes := Except String Unit × Conn × Ctx × List Action

/-- `_on_request_start`: insert the base event, insert the
`request_start` detail row, commit.  The context is only read. -/
def on_request_start (c : Conn) (ctx : Ctx) (method url : String)
    (headers : List (PyStr × PyStr)) (now : Rat) : HRes :=
  match insert_event c ctx.request_id "request_start" now with
  | (.error e, c1) => (.error e, c1, ctx, [.insertRow "events"])
  | (.ok event_id, c1) =>
    match c1.execute (.request_start event_id method url (serialize_headers headers)) with
    | (.error e, c2) =>
      (.error e, c2, ctx, [.insertRow "events", .insertRow "request_start"])
    | (.ok _, c2) =>
      match c2.commit with
      | (.error e, c3) =>
        (.error e, c3, ctx,
         [.insertRow "events", .insertRow "request_start", .commitTxn])
      | (.ok _, c3) =>
        (.ok (), c3, ctx,
         [.insertRow "events", .insertRow "request_start", .commitTxn])

/-- `_on_request_end`: compute `elapsed = time.time() - ctx.started`
(`nowElapsed` is that clock reading, `nowInsert` the one taken inside
`_insert_event`), insert the base event, insert the `request_end` detail
row, commit.  The context is only read. -/
def on_request_end (c : Conn) (ctx : Ctx) (status : Int) (reason : Option String)
    (headers : List (PyStr × PyStr)) (nowElapsed nowInsert : Rat) : HRes :=
  match insert_event c ctx.request_id "request_end" nowInsert with
  | (.error e, c1) => (.error e, c1, ctx, [.insertRow "events"])
  | (.ok event_id, c1) =>
    match c1.execute (.request_end event_id status reason
        (serialize_headers headers) (nowElapsed - ctx.started)) with
    | (.error e, c2) =>
      (.error e, c2, ctx, [.insertRow "events", .insertRow "request_end"])
    | (.ok _, c2) =>
      match c2.commit with
      | (.error e, c3) =>
        (.error e, c3, ctx,
         [.insertRow "events", .insertRow "request_end", .commitTxn])
      | (.ok _, c3) =>
        (.ok (), c3, ctx,
         [.insertRow "events", .insertRow "request_end", .commitTxn])

/-- `_on_request_exception`: insert the base event, insert the
`request_exception` detail row holding `repr(params.exception)`, commit. -/
def on_request_exception (c : Conn) (ctx : Ctx) (excText : String) (now : Rat) : HRes :=
  match insert_event c ctx.request_id "request_exception" now with
  | (.error e, c1) => (.error e, c1, ctx, [.insertRow "events"])
  | (.ok event_id, c1) =>
    match c1.execute (.request_exception event_id excText) with
    | (.error e, c2) =>
      (.error e, c2, ctx, [.insertRow "events", .insertRow "request_exception"])
    | (.ok _, c2) =>
      match c2.commit with
      | (.error e, c3) =>
        (.error e, c3, ctx,
         [.insertRow "events", .insertRow "request_exception", .commitTxn])
      | (.ok _, c3) =>
        (.ok (), c3, ctx,
         [.insertRow "events", .insertRow "request_exception", .commitTxn])

/-- `_on_request_chunk_sent`: insert the base event, insert the
`request_chunk` detail row (index taken from the context, size
`len(params.chunk)`), increment `ctx.request_chunk_index`, and only then
commit — the increment line precedes `self._conn.commit()` in the source. -/
def on_request_chunk_sent (c : Conn) (ctx : Ctx) (chunk : List Nat) (now : Rat) : HRes :=
  match insert_event c ctx.request_id "request_chunk" now with
  | (.error e, c1) => (.error e, c1, ctx, [.insertRow "events"])
  | (.ok event_id, c1) =>
    match c1.execute (.request_chunk event_id ctx.request_chunk_index
        chunk.length chunk) with
    | (.error e, c2) =>
      (.error e, c2, ctx, [.insertRow "events", .insertRow "request_chunk"])
    | (.ok _, c2) =>
      match c2.commit with
      | (.error e, c3) =>
        (.error e, c3, { ctx with request_chunk_index := ctx.request_chunk_index + 1 },
         [.insertRow "events", .insertRow "request_chunk", .incReqCounter, .commitTxn])
      | (.ok _, c3) =>
        (.ok (), c3, { ctx with request_chunk_index := ctx.request_chunk_index + 1 },
         [.insertRow "events", .insertRow "request_chunk", .incReqCounter, .commitTxn])

/-- `_on_response_chunk_received`: insert the base event, insert the
`response_chunk` detail row, increment `ctx.response_chunk_index`, and only
then commit — as in the sent-chunk handler, the increment precedes the
commit in the source. -/
def on_response_chunk_received (c : Conn) (ctx : Ctx) (chunk : List Nat) (now : Rat) : HRes :=
  match insert_event c ctx.request_id "response_chunk" now with
  | (.error e, c1) => (.error e, c1, ctx, [.insertRow "events"])
  | (.ok event_id, c1) =>
    match c1.execute (.response_chunk event_id ctx.response_chunk_index
        chunk.length chunk) with
    | (.error e, c2) =>
      (.error e, c2, ctx, [.insertRow "events", .insertRow "response_chunk"])
    | (.ok _, c2) =>
      match c2.commit with
      | (.error e, c3) =>
        (.error e, c3, { ctx with response_chunk_index := ctx.response_chunk_index + 1 },
         [.insertRow "events", .insertRow "response_chunk", .incRespCounter, .commitTxn])
      | (.ok _, c3) =>
        (.ok (), c3, { ctx with response_chunk_index := ctx.response_chunk_index + 1 },
         [.insertRow "events", .insertRow "response_chunk", .incRespCounter, .commitTxn])

/-- One lifecycle hook invocation together with its kind-specific
parameters and the wall-clock readings taken during it. -/
inductive Invocation where
  | start (method url : String) (headers : List (PyStr × PyStr)) (now : Rat)
  | finish (status : Int) (reason : Option String)
      (headers : List (PyStr × PyStr)) (nowElapsed nowInsert : Rat)
  | excn (excText : String) (now : Rat)
  | chunkSent (chunk : List Nat) (now : Rat)
  | chunkRecv (chunk : List Nat) (now : Rat)

/-- Dispatch one invocation to the handler registered for its kind. -/
def runHandler : Invocation → Conn → Ctx → HRes
  | .start method url headers now, c, ctx => on_request_start c ctx method url headers now
  | .finish status reason headers nE nI, c, ctx =>
    on_request_end c ctx status reason headers nE nI
  | .excn t now, c, ctx => on_request_exception c ctx t now
  | .chunkSent chunk now, c, ctx => on_request_chunk_sent c ctx chunk now
  | .chunkRecv chunk now, c, ctx => on_response_chunk_received c ctx chunk now

/-- Run a sequence of invocations for one request, threading connection and
context; the host keeps invoking hooks regardless of earlier outcomes. -/
def runTrace (is : List Invocation) (c : Conn) (ctx : Ctx) : Conn × Ctx :=
  match is with
  | [] => (c, ctx)
  | i :: rest =>
    match runHandler i c ctx with
    | (_, c1, ctx1, _) => runTrace rest c1 ctx1

/-- The `chunk_index` values of the `request_chunk` rows of a row list, in
order. -/
def requestChunkIndices (rows : List Row) : List Nat :=
  rows.filterMap fun r =>
    match r with
    | .request_chunk _ i _ _ => some i
    | _ => none

/-- The `chunk_index` values of the `response_chunk` rows of a row list, in
order. -/
def responseChunkIndices (rows : List Row) : List Nat :=
  rows.filterMap fun r =>
    match r with
    | .response_chunk _ i _ _ => some i
    | _ => none

/-- Number of sent-chunk invocations in a list. -/
def countSent (is : List Invocation) : Nat :=
  is.countP fun i => match i with | .chunkSent _ _ => true | _ => false

/-- Number of received-chunk invocations in a list. -/
def countRecv (is : List Invocation) : Nat :=
  is.countP fun i => match i with | .chunkRecv _ _ => true | _ => false

/-- The five lifecycle hook kinds of `TraceConfig` used by the recorder. -/
inductive HandlerKind where
  | request_start
  | request_end
  | request_exception
  | request_chunk_sent
  | response_chunk_received
deriving DecidableEq

/-- A handler registered on a `TraceConfig` slot: a bound method of the
recorder, identified by which hook it implements and the storage handle
(`self._conn`) it is bound to. -/
structure BoundHandler where
  kind : HandlerKind
  conn : Conn

/-- The `TraceConfig` built by the recorder: the context factory and one
registration list per lifecycle hook. -/
structure TraceConfig where
  trace_config_ctx_factory : String → Rat → Ctx
  on_request_start_hooks : List BoundHandler
  on_request_end_hooks : List BoundHandler
  on_request_exception_hooks : List BoundHandler
  on_request_chunk_sent_hooks : List BoundHandler
  on_response_chunk_received_hooks : List BoundHandler

/-- The recorder object: it keeps the caller-supplied connection and the
trace config it populated. -/
structure SQLiteTraceRecorder where
  conn : Conn
  trace_config : TraceConfig

/-- `SQLiteTraceRecorder.__init__`: store the connection, create a
`TraceConfig` backed by `_ctx_factory`, and append exactly one bound
handler to each of the five hook lists.  The connection itself is neither
opened, closed, nor otherwise touched. -/
def mkRecorder (conn : Conn) : SQLiteTraceRecorder :=
  { conn := conn
    trace_config :=
      { trace_config_ctx_factory := ctx_factory
        on_request_start_hooks := [⟨.request_start, conn⟩]
        on_request_end_hooks := [⟨.request_end, conn⟩]
        on_request_exception_hooks := [⟨.request_exception, conn⟩]
        on_request_chunk_sent_hooks := [⟨.request_chunk_sent, conn⟩]
        on_response_chunk_received_hooks := [⟨.response_chunk_received, conn⟩] } }

/-- The failure oracle never fires: every storage operation the connection
is asked to perform succeeds. -/
def NoFail (c : Conn) : Prop := ∀ n, c.failAt n = none

/-! ## Helper lemmas: closed forms of the handlers on a non-failing
connection. -/

theorem execute_ok (c : Conn) (r : Row) (h : c.failAt c.opCount = none) :
    c.execute r = (.ok (), { c with pending := c.pending ++ [r], opCount := c.opCount + 1 }) := by
  simp [Conn.execute, h]

theorem commit_ok (c : Conn) (h : c.failAt c.opCount = none) :
    c.commit = (.ok (), { c with committed := c.committed ++ c.pending, pending := [],
                                 opCount := c.opCount + 1 }) := by
  simp [Conn.commit, h]

theorem insert_event_ok (c : Conn) (rid et : String) (now : Rat)
    (h : c.failAt c.opCount = none) :
    insert_event c rid et now =
      (.ok c.nextEventId,
       { c with pending := c.pending ++ [Row.events ⟨c.nextEventId, now, rid, et⟩],
                opCount := c.opCount + 1, nextEventId := c.nextEventId + 1 }) := by
  simp [insert_event, execute_ok c _ h]

theorem on_request_start_ok (c : Conn) (ctx : Ctx) (method url : String)
    (headers : List (PyStr × PyStr)) (now : Rat) (h : NoFail c) :
    on_request_start c ctx method url headers now =
      (.ok (),
       { c with
          committed := c.committed ++
            (c.pending ++ [Row.events ⟨c.nextEventId, now, ctx.request_id, "request_start"⟩] ++
              [Row.request_start c.nextEventId method url (serialize_headers headers)])
          pending := []
          nextEventId := c.nextEventId + 1
          opCount := c.opCount + 3 },
       ctx,
       [.insertRow "events", .insertRow "request_start", .commitTxn]) := by
  have hf : ∀ n, c.failAt n = none := h
  simp [on_request_start, insert_event_ok c _ _ _ (hf _), execute_ok, commit_ok, hf]

theorem on_request_end_ok (c : Conn) (ctx : Ctx) (status : Int)
    (reason : Option String) (headers : List (PyStr × PyStr)) (nE nI : Rat)
    (h : NoFail c) :
    on_request_end c ctx status reason headers nE nI =
      (.ok (),
       { c with
          committed := c.committed ++
            (c.pending ++ [Row.events ⟨c.nextEventId, nI, ctx.request_id, "request_end"⟩] ++
              [Row.request_end c.nextEventId status reason (serialize_headers headers)
                (nE - ctx.started)])
          pending := []
          nextEventId := c.nextEventId + 1
          opCount := c.opCount + 3 },
       ctx,
       [.insertRow "events", .insertRow "request_end", .commitTxn]) := by
  have hf : ∀ n, c.failAt n = none := h
  simp [on_request_end, insert_event_ok c _ _ _ (hf _), execute_ok, commit_ok, hf]

theorem on_request_exception_ok (c : Conn) (ctx : Ctx) (excText : String)
    (now : Rat) (h : NoFail c) :
    on_request_exception c ctx excText now =
      (.ok (),
       { c with
          committed := c.committed ++
            (c.pending ++ [Row.events ⟨c.nextEventId, now, ctx.request_id, "request_exception"⟩] ++
              [Row.request_exception c.nextEventId excText])
          pending := []
          nextEventId := c.nextEventId + 1
          opCount := c.opCount + 3 },
       ctx,
       [.insertRow "events", .insertRow "request_exception", .commitTxn]) := by
  have hf : ∀ n, c.failAt n = none := h
  simp [on_request_exception, insert_event_ok c _ _ _ (hf _), execute_ok, commit_ok, hf]

theorem on_request_chunk_sent_ok (c : Conn) (ctx : Ctx) (chunk : List Nat)
    (now : Rat) (h : NoFail c) :
    on_request_chunk_sent c ctx chunk now =
      (.ok (),
       { c with
          committed := c.committed ++
            (c.pending ++ [Row.events ⟨c.nextEventId, now, ctx.request_id, "request_chunk"⟩] ++
              [Row.request_chunk c.nextEventId ctx.request_chunk_index chunk.length chunk])
          pending := []
          nextEventId := c.nextEventId + 1
          opCount := c.opCount + 3 },
       { ctx with request_chunk_index := ctx.request_chunk_index + 1 },
       [.insertRow "events", .insertRow "request_chunk", .incReqCounter, .commitTxn]) := by
  have hf : ∀ n, c.failAt n = none := h
  simp [on_request_chunk_sent, insert_event_ok c _ _ _ (hf _), execute_ok, commit_ok, hf]

theorem on_response_chunk_received_ok (c : Conn) (ctx : Ctx) (chunk : List Nat)
    (now : Rat) (h : NoFail c) :
    on_response_chunk_received c ctx chunk now =
      (.ok (),
       { c with
          committed := c.committed ++
            (c.pending ++ [Row.events ⟨c.nextEventId, now, ctx.request_id, "response_chunk"⟩] ++
              [Row.response_chunk c.nextEventId ctx.response_chunk_index chunk.length chunk])
          pending := []
          nextEventId := c.nextEventId + 1
          opCount := c.opCount + 3 },
       { ctx with response_chunk_index := ctx.response_chunk_index + 1 },
       [.insertRow "events", .insertRow "response_chunk", .incRespCounter, .commitTxn]) := by
  have hf : ∀ n, c.failAt n = none := h
  simp [on_response_chunk_received, insert_event_ok c _ _ _ (hf _), execute_ok, commit_ok, hf]

/-! ## Helper lemmas for the header serialization round trip. -/

theorem hexVal_hexDig (n : Nat) (h : n < 16) : hexVal (hexDig n) = some n := by
  interval_cases n <;> decide

theorem hexRecomp (h : Nat) (hh : h < 0x10000) :
    4096 * (h / 4096 % 16) + 256 * (h / 256 % 16) + 16 * (h / 16 % 16) + h % 16 = h := by
  omega

theorem parseStr_uEsc (h : Nat) (hlt : h < 0x10000)
    (hns : ¬(0xD800 ≤ h ∧ h < 0xDC00)) (tail : List Nat) :
    parseStr (uEsc h ++ tail) = (parseStr tail).map (fun pr => (h :: pr.1, pr.2)) := by
  have d1 := hexVal_hexDig (h / 4096 % 16) (Nat.mod_lt _ (by norm_num))
  have d2 := hexVal_hexDig (h / 256 % 16) (Nat.mod_lt _ (by norm_num))
  have d3 := hexVal_hexDig (h / 16 % 16) (Nat.mod_lt _ (by norm_num))
  have d4 := hexVal_hexDig (h % 16) (Nat.mod_lt _ (by norm_num))
  rw [uEsc]
  simp only [List.cons_append]
  rw [parseStr]
  simp [d1, d2, d3, d4, hexRecomp h hlt, hns]

theorem tryLowSurr_uEsc (hl : Nat) (hlr : 0xDC00 ≤ hl ∧ hl < 0xE000) (tail : List Nat) :
    (tryLowSurr (uEsc hl ++ tail)).map (fun pr => (pr.1, pr.2.val)) = some (hl, tail) := by
  have d1 := hexVal_hexDig (hl / 4096 % 16) (Nat.mod_lt _ (by norm_num))
  have d2 := hexVal_hexDig (hl / 256 % 16) (Nat.mod_lt _ (by norm_num))
  have d3 := hexVal_hexDig (hl / 16 % 16) (Nat.mod_lt _ (by norm_num))
  have d4 := hexVal_hexDig (hl % 16) (Nat.mod_lt _ (by norm_num))
  rw [uEsc]
  simp only [List.cons_append]
  rw [tryLowSurr]
  simp [d1, d2, d3, d4, hexRecomp hl (by omega), hlr]

theorem parseStr_uEsc_pair (hh hl : Nat) (hhr : 0xD800 ≤ hh ∧ hh < 0xDC00)
    (hlr : 0xDC00 ≤ hl ∧ hl < 0xE000) (tail : List Nat) :
    parseStr (uEsc hh ++ (uEsc hl ++ tail)) =
      (parseStr tail).map
        (fun pr => ((0x10000 + 0x400 * (hh - 0xD800) + (hl - 0xDC00)) :: pr.1, pr.2)) := by
  have d1 := hexVal_hexDig (hh / 4096 % 16) (Nat.mod_lt _ (by norm_num))
  have d2 := hexVal_hexDig (hh / 256 % 16) (Nat.mod_lt _ (by norm_num))
  have d3 := hexVal_hexDig (hh / 16 % 16) (Nat.mod_lt _ (by norm_num))
  have d4 := hexVal_hexDig (hh % 16) (Nat.mod_lt _ (by norm_num))
  have hlow := tryLowSurr_uEsc hl hlr tail
  rw [uEsc]
  simp only [List.cons_append]
  rw [parseStr]
  simp only [d1, d2, d3, d4, hexRecomp hh (by omega)]
  rcases hts : tryLowSurr (uEsc hl ++ tail) with _ | ⟨h2, r4⟩
  · rw [hts] at hlow
    simp at hlow
  · rw [hts] at hlow
    have hlow2 : h2 = hl ∧ r4.val = tail := by simpa using hlow
    simp [hts, hhr, hlow2.1, hlow2.2]

theorem escChar_parse (c : Nat) (hc : ScalarCP c) (tail : List Nat) :
    parseStr (escChar c ++ tail) = (parseStr tail).map (fun pr => (c :: pr.1, pr.2)) := by
  obtain ⟨hsur, hmax⟩ := hc
  rw [escChar]
  split_ifs with hq hb h08 h09 h0A h0C h0D hpr hbmp
  · subst hq; rw [List.cons_append, List.cons_append, parseStr.eq_def]; norm_num
  · subst hb; rw [List.cons_append, List.cons_append, parseStr.eq_def]; norm_num
  · subst h08; rw [List.cons_append, List.cons_append, parseStr.eq_def]; norm_num
  · subst h09; rw [List.cons_append, List.cons_append, parseStr.eq_def]; norm_num
  · subst h0A; rw [List.cons_append, List.cons_append, parseStr.eq_def]; norm_num
  · subst h0C; rw [List.cons_append, List.cons_append, parseStr.eq_def]; norm_num
  · subst h0D; rw [List.cons_append, List.cons_append, parseStr.eq_def]; norm_num
  · rw [List.cons_append, List.nil_append, parseStr.eq_def]
    have hn20 : ¬ c < 0x20 := by omega
    simp [hq, hb, hn20]
  · exact parseStr_uEsc c hbmp (by omega) tail
  · rw [List.append_assoc]
    rw [parseStr_uEsc_pair (0xD800 + (c - 0x10000) / 0x400) (0xDC00 + (c - 0x10000) % 0x400)
      (by omega) (by omega) tail]
    have hval : 0x10000 + 0x400 * (0xD800 + (c - 0x10000) / 0x400 - 0xD800) +
        (0xDC00 + (c - 0x10000) % 0x400 - 0xDC00) = c := by omega
    rw [hval]

theorem parseStr_escape (s : PyStr) (hs : ∀ c ∈ s, ScalarCP c) (rest : List Nat) :
    parseStr (escape s ++ 0x22 :: rest) = some (s, rest) := by
  induction s with
  | nil => rw [escape, List.nil_append, parseStr.eq_def]; norm_num
  | cons c s ih =>
    rw [escape, List.append_assoc, escChar_parse c (hs c (by simp)) _,
      ih (fun x hx => hs x (by simp [hx]))]
    simp

theorem parsePair_encPair (n v : PyStr) (hn : ∀ c ∈ n, ScalarCP c)
    (hv : ∀ c ∈ v, ScalarCP c) (tail : List Nat) :
    parsePair (encPair (n, v) ++ tail) = some ((n, v), tail) := by
  have e1 : encPair (n, v) ++ tail =
      0x5B :: 0x22 :: (escape n ++ 0x22 :: 0x2C :: 0x20 :: 0x22 ::
        (escape v ++ 0x22 :: 0x5D :: tail)) := by
    simp [encPair, List.append_assoc]
  rw [e1]
  simp [parsePair, parseStr_escape n hn, parseStr_escape v hv]

theorem parsePairsRest_encRest (t : List (PyStr × PyStr))
    (ht : ∀ p ∈ t, (∀ c ∈ p.1, ScalarCP c) ∧ (∀ c ∈ p.2, ScalarCP c)) :
    ∀ fuel, t.length < fuel → ∀ tail,
      parsePairsRest fuel (encRest t ++ 0x5D :: tail) = some (t, 0x5D :: tail) := by
  induction t with
  | nil =>
    intro fuel hf tail
    cases fuel with
    | zero => omega
    | succ f => rw [encRest, List.nil_append]; simp [parsePairsRest]
  | cons p t ih =>
    intro fuel hf tail
    cases fuel with
    | zero => omega
    | succ f =>
      obtain ⟨n, v⟩ := p
      have hn := (ht (n, v) (by simp)).1
      have hv := (ht (n, v) (by simp)).2
      have e1 : encRest ((n, v) :: t) ++ 0x5D :: tail =
          0x2C :: 0x20 :: (encPair (n, v) ++ (encRest t ++ 0x5D :: tail)) := by
        simp [encRest, List.append_assoc]
      rw [e1]
      simp [parsePairsRest, parsePair_encPair n v hn hv,
        ih (fun q hq => ht q (by simp [hq])) f
          (by simp only [List.length_cons] at hf; omega) tail]

theorem encRest_length (t : List (PyStr × PyStr)) : t.length ≤ (encRest t).length := by
  induction t with
  | nil => simp [encRest]
  | cons p t ih =>
    simp only [encRest, List.length_cons, List.length_append]
    omega

/-! ## Helper lemmas for the schema initializer. -/

theorem mem_createTable_of_mem (ts : List String) (n a : String) (h : a ∈ ts) :
    a ∈ createTableIfNotExists ts n := by
  unfold createTableIfNotExists
  split <;> simp [h]

theorem self_mem_createTable (ts : List String) (n : String) :
    n ∈ createTableIfNotExists ts n := by
  unfold createTableIfNotExists
  by_cases h : n ∈ ts
  · simp only [if_pos h]
    exact h
  · simp [h]

theorem createTable_of_mem (ts : List String) (n : String) (h : n ∈ ts) :
    createTableIfNotExists ts n = ts := by
  unfold createTableIfNotExists
  simp [h]

theorem nodup_createTable (ts : List String) (n : String) (h : ts.Nodup) :
    (createTableIfNotExists ts n).Nodup := by
  unfold createTableIfNotExists
  by_cases hm : n ∈ ts
  · simpa [hm] using h
  · simp [hm, h, List.nodup_append, List.disjoint_singleton]

theorem mem_foldl_createTable_of_mem (l : List String) (ts : List String) (a : String)
    (h : a ∈ ts) : a ∈ l.foldl createTableIfNotExists ts := by
  induction l generalizing ts with
  | nil => simpa using h
  | cons x l ih => exact ih _ (mem_createTable_of_mem ts x a h)

theorem mem_foldl_createTable (l : List String) (ts : List String) (n : String)
    (h : n ∈ l) : n ∈ l.foldl createTableIfNotExists ts := by
  induction l generalizing ts with
  | nil => simp at h
  | cons x l ih =>
    rcases List.mem_cons.mp h with rfl | hn
    · exact mem_foldl_createTable_of_mem l _ n (self_mem_createTable ts n)
    · exact ih _ hn

theorem foldl_createTable_of_all_mem (l : List String) (ts : List String)
    (h : ∀ n ∈ l, n ∈ ts) : l.foldl createTableIfNotExists ts = ts := by
  induction l with
  | nil => rfl
  | cons x l ih =>
    rw [List.foldl_cons, createTable_of_mem ts x (h x (by simp))]
    exact ih fun n hn => h n (by simp [hn])

theorem nodup_foldl_createTable (l : List String) (ts : List String) (h : ts.Nodup) :
    (l.foldl createTableIfNotExists ts).Nodup := by
  induction l generalizing ts with
  | nil => simpa using h
  | cons x l ih => exact ih _ (nodup_createTable ts x h)

/-! ## Helper lemmas for chunk-index sequences. -/

theorem runTrace_chunk_invariant (is : List Invocation) :
    ∀ (c : Conn) (ctx : Ctx), NoFail c → c.pending = [] →
      requestChunkIndices c.committed = List.range ctx.request_chunk_index →
      responseChunkIndices c.committed = List.range ctx.response_chunk_index →
      (runTrace is c ctx).1.pending = [] ∧
      (runTrace is c ctx).2.request_chunk_index =
        ctx.request_chunk_index + countSent is ∧
      (runTrace is c ctx).2.response_chunk_index =
        ctx.response_chunk_index + countRecv is ∧
      requestChunkIndices (runTrace is c ctx).1.committed =
        List.range ((runTrace is c ctx).2.request_chunk_index) ∧
      responseChunkIndices (runTrace is c ctx).1.committed =
        List.range ((runTrace is c ctx).2.response_chunk_index) := by
  induction is with
  | nil =>
    intro c ctx h hp hreq hresp
    simp [runTrace, countSent, countRecv, hp, hreq, hresp]
  | cons i rest ih =>
    intro c ctx h hp hreq hresp
    cases i with
    | start method url headers now =>
      rw [runTrace, runHandler, on_request_start_ok c ctx method url headers now h]
      simp only []
      obtain ⟨H1, H2, H3, H4, H5⟩ := ih
        { c with
            committed := c.committed ++ (c.pending ++ [Row.events ⟨c.nextEventId, now, ctx.request_id, "request_start"⟩] ++ [Row.request_start c.nextEventId method url (serialize_headers headers)])
            pending := []
            nextEventId := c.nextEventId + 1
            opCount := c.opCount + 3 }
        ctx h rfl
        (by simp only [requestChunkIndices] at hreq ⊢
            simp [List.filterMap_append, hp, hreq])
        (by simp only [responseChunkIndices] at hresp ⊢
            simp [List.filterMap_append, hp, hresp])
      refine ⟨H1, ?_, ?_, H4, H5⟩
      · simp only [countSent, List.countP_cons] at H2 ⊢
        simpa using H2
      · simp only [countRecv, List.countP_cons] at H3 ⊢
        simpa using H3
    | finish status reason headers nE nI =>
      rw [runTrace, runHandler, on_request_end_ok c ctx status reason headers nE nI h]
      simp only []
      obtain ⟨H1, H2, H3, H4, H5⟩ := ih
        { c with
            committed := c.committed ++ (c.pending ++ [Row.events ⟨c.nextEventId, nI, ctx.request_id, "request_end"⟩] ++ [Row.request_end c.nextEventId status reason (serialize_headers headers) (nE - ctx.started)])
            pending := []
            nextEventId := c.nextEventId + 1
            opCount := c.opCount + 3 }
        ctx h rfl
        (by simp only [requestChunkIndices] at hreq ⊢
            simp [List.filterMap_append, hp, hreq])
        (by simp only [responseChunkIndices] at hresp ⊢
            simp [List.filterMap_append, hp, hresp])
      refine ⟨H1, ?_, ?_, H4, H5⟩
      · simp only [countSent, List.countP_cons] at H2 ⊢
        simpa using H2
      · simp only [countRecv, List.countP_cons] at H3 ⊢
        simpa using H3
    | excn t now =>
      rw [runTrace, runHandler, on_request_exception_ok c ctx t now h]
      simp only []
      obtain ⟨H1, H2, H3, H4, H5⟩ := ih
        { c with
            committed := c.committed ++ (c.pending ++ [Row.events ⟨c.nextEventId, now, ctx.request_id, "request_exception"⟩] ++ [Row.request_exception c.nextEventId t])
            pending := []
            nextEventId := c.nextEventId + 1
            opCount := c.opCount + 3 }
        ctx h rfl
        (by simp only [requestChunkIndices] at hreq ⊢
            simp [List.filterMap_append, hp, hreq])
        (by simp only [responseChunkIndices] at hresp ⊢
            simp [List.filterMap_append, hp, hresp])
      refine ⟨H1, ?_, ?_, H4, H5⟩
      · simp only [countSent, List.countP_cons] at H2 ⊢
        simpa using H2
      · simp only [countRecv, List.countP_cons] at H3 ⊢
        simpa using H3
    | chunkSent chunk now =>
      rw [runTrace, runHandler, on_request_chunk_sent_ok c ctx chunk now h]
      simp only []
      obtain ⟨H1, H2, H3, H4, H5⟩ := ih
        { c with
            committed := c.committed ++ (c.pending ++ [Row.events ⟨c.nextEventId, now, ctx.request_id, "request_chunk"⟩] ++ [Row.request_chunk c.nextEventId ctx.request_chunk_index chunk.length chunk])
            pending := []
            nextEventId := c.nextEventId + 1
            opCount := c.opCount + 3 }
        { ctx with request_chunk_index := ctx.request_chunk_index + 1 } h rfl
        (by simp only [requestChunkIndices] at hreq ⊢
            simp [List.filterMap_append, hp, hreq, List.range_succ])
        (by simp only [responseChunkIndices] at hresp ⊢
            simp [List.filterMap_append, hp, hresp])
      refine ⟨H1, ?_, ?_, H4, H5⟩
      · simp only [countSent, List.countP_cons] at H2 ⊢
        simp at H2 ⊢
        omega
      · simp only [countRecv, List.countP_cons] at H3 ⊢
        simpa using H3
    | chunkRecv chunk now =>
      rw [runTrace, runHandler, on_response_chunk_received_ok c ctx chunk now h]
      simp only []
      obtain ⟨H1, H2, H3, H4, H5⟩ := ih
        { c with
            committed := c.committed ++ (c.pending ++ [Row.events ⟨c.nextEventId, now, ctx.request_id, "response_chunk"⟩] ++ [Row.response_chunk c.nextEventId ctx.response_chunk_index chunk.length chunk])
            pending := []
            nextEventId := c.nextEventId + 1
            opCount := c.opCount + 3 }
        { ctx with response_chunk_index := ctx.response_chunk_index + 1 } h rfl
        (by simp only [requestChunkIndices] at hreq ⊢
            simp [List.filterMap_append, hp, hreq])
        (by simp only [responseChunkIndices] at hresp ⊢
            simp [List.filterMap_append, hp, hresp, List.range_succ])
      refine ⟨H1, ?_, ?_, H4, H5⟩
      · simp only [countSent, List.countP_cons] at H2 ⊢
        simpa using H2
      · simp only [countRecv, List.countP_cons] at H3 ⊢
        simp at H3 ⊢
        omega
/-! ## Helper lemmas for error propagation. -/

theorem runHandler_ok_of_clean (i : Invocation) (c : Conn) (ctx : Ctx)
    (h0 : c.failAt c.opCount = none) (h1 : c.failAt (c.opCount + 1) = none)
    (h2 : c.failAt (c.opCount + 2) = none) : (runHandler i c ctx).1 = .ok () := by
  cases i <;>
    simp [runHandler, on_request_start, on_request_end, on_request_exception,
      on_request_chunk_sent, on_response_chunk_received, insert_event,
      Conn.execute, Conn.commit, h0, h1, h2]

theorem runHandler_error (i : Invocation) (c : Conn) (ctx : Ctx) (e : String)
    (hres : (runHandler i c ctx).1 = .error e) : ∃ k, c.failAt k = some e := by
  rcases h0 : c.failAt c.opCount with _ | e0
  · rcases h1 : c.failAt (c.opCount + 1) with _ | e1
    · rcases h2 : c.failAt (c.opCount + 2) with _ | e2
      · rw [runHandler_ok_of_clean i c ctx h0 h1 h2] at hres
        simp at hres
      · refine ⟨c.opCount + 2, ?_⟩
        rw [h2]
        cases i <;>
          simp [runHandler, on_request_start, on_request_end, on_request_exception,
            on_request_chunk_sent, on_response_chunk_received, insert_event,
            Conn.execute, Conn.commit, h0, h1, h2] at hres <;>
          rw [hres]
    · refine ⟨c.opCount + 1, ?_⟩
      rw [h1]
      cases i <;>
        simp [runHandler, on_request_start, on_request_end, on_request_exception,
          on_request_chunk_sent, on_response_chunk_received, insert_event,
          Conn.execute, Conn.commit, h0, h1] at hres <;>
        rw [hres]
  · refine ⟨c.opCount, ?_⟩
    rw [h0]
    cases i <;>
      simp [runHandler, on_request_start, on_request_end, on_request_exception,
        on_request_chunk_sent, on_response_chunk_received, insert_event,
        Conn.execute, Conn.commit, h0] at hres <;>
      rw [hres]

theorem runHandler_committed_mono (i : Invocation) (c : Conn) (ctx : Ctx) :
    ∃ tail, (runHandler i c ctx).2.1.committed = c.committed ++ tail := by
  rcases h0 : c.failAt c.opCount with _ | e0 <;>
    rcases h1 : c.failAt (c.opCount + 1) with _ | e1 <;>
      rcases h2 : c.failAt (c.opCount + 2) with _ | e2 <;>
        cases i <;>
          simp [runHandler, on_request_start, on_request_end, on_request_exception,
            on_request_chunk_sent, on_response_chunk_received, insert_event,
            Conn.execute, Conn.commit, h0, h1, h2]

theorem runHandler_conn_frame (i : Invocation) (c : Conn) (ctx : Ctx) :
    (runHandler i c ctx).2.1.failAt = c.failAt ∧
    c.opCount ≤ (runHandler i c ctx).2.1.opCount := by
  rcases h0 : c.failAt c.opCount with _ | e0 <;>
    rcases h1 : c.failAt (c.opCount + 1) with _ | e1 <;>
      rcases h2 : c.failAt (c.opCount + 2) with _ | e2 <;>
        cases i <;>
          simp [runHandler, on_request_start, on_request_end, on_request_exception,
            on_request_chunk_sent, on_response_chunk_received, insert_event,
            Conn.execute, Conn.commit, h0, h1, h2] <;>
          omega

/-! ## Claim theorems. -/

/-- Claim C1, counterexample: on a connection whose commit (the third
low-level operation) fails, the sent-chunk handler still increments the
context's request-chunk counter, and nothing was durably committed — so the
counter is NOT incremented "only after the write succeeds", and the actual
step order is insert, insert, increment, commit. -/
theorem c1_counterexample :
    (on_request_chunk_sent
        ⟨tableNames, [], [], 1, fun n => if n = 2 then some "disk I/O error" else none, 0⟩
        (ctx_factory "c0ffee" 0) [1, 2, 3] 5).1 = .error "disk I/O error" ∧
    (on_request_chunk_sent
        ⟨tableNames, [], [], 1, fun n => if n = 2 then some "disk I/O error" else none, 0⟩
        (ctx_factory "c0ffee" 0) [1, 2, 3] 5).2.2.1.request_chunk_index = 1 ∧
    (on_request_chunk_sent
        ⟨tableNames, [], [], 1, fun n => if n = 2 then some "disk I/O error" else none, 0⟩
        (ctx_factory "c0ffee" 0) [1, 2, 3] 5).2.1.committed = [] := by
  refine ⟨rfl, rfl, rfl⟩

/-- Claim C1 (amended): each chunk handler performs, in order: insert one
event-log row, insert one detail row, increment the relevant counter, and
then commit — the increment precedes the commit, so it is guarded by the
success of the two inserts but not by the success of the durable commit. -/
theorem c1_chunk_handler_order (c : Conn) (ctx : Ctx) (chunk : List Nat)
    (now : Rat) (h : NoFail c) :
    (on_request_chunk_sent c ctx chunk now).2.2.2 =
      [.insertRow "events", .insertRow "request_chunk", .incReqCounter, .commitTxn] ∧
    (on_response_chunk_received c ctx chunk now).2.2.2 =
      [.insertRow "events", .insertRow "response_chunk", .incRespCounter, .commitTxn] ∧
    (on_request_chunk_sent c ctx chunk now).1 = .ok () ∧
    (on_response_chunk_received c ctx chunk now).1 = .ok () ∧
    (on_request_chunk_sent c ctx chunk now).2.2.1.request_chunk_index =
      ctx.request_chunk_index + 1 ∧
    (on_response_chunk_received c ctx chunk now).2.2.1.response_chunk_index =
      ctx.response_chunk_index + 1 := by
  simp [on_request_chunk_sent_ok c ctx chunk now h,
    on_response_chunk_received_ok c ctx chunk now h]

/-- Witness for C1's amended theorem at a concrete non-failing connection. -/
theorem c1_witness :
    (on_request_chunk_sent ⟨tableNames, [], [], 1, fun _ => none, 0⟩
        (ctx_factory "aa" 0) [7] 2).2.2.2 =
      [.insertRow "events", .insertRow "request_chunk", .incReqCounter, .commitTxn] :=
  (c1_chunk_handler_order ⟨tableNames, [], [], 1, fun _ => none, 0⟩
    (ctx_factory "aa" 0) [7] 2 (fun _ => rfl)).1

/-- Claim C2: for any invocation sequence processed in order on a fresh
context and an initially empty, non-failing store, the chunk indices
recorded in `request_chunk` are exactly 0, 1, ..., countSent−1 and those in
`response_chunk` are exactly 0, 1, ..., countRecv−1 — zero-based, strictly
increasing, gap-free, and counted independently per direction. -/
theorem c2_chunk_index_sequences (is : List Invocation) (u : String) (t : Rat)
    (c : Conn) (h : NoFail c) (hco : c.committed = []) (hp : c.pending = []) :
    requestChunkIndices (runTrace is c (ctx_factory u t)).1.committed =
      List.range (countSent is) ∧
    responseChunkIndices (runTrace is c (ctx_factory u t)).1.committed =
      List.range (countRecv is) := by
  obtain ⟨H1, H2, H3, H4, H5⟩ := runTrace_chunk_invariant is c (ctx_factory u t) h hp
    (by simp [hco, requestChunkIndices, ctx_factory])
    (by simp [hco, responseChunkIndices, ctx_factory])
  constructor
  · rw [H4, H2]
    simp [ctx_factory]
  · rw [H5, H3]
    simp [ctx_factory]

/-- Witness for C2 at a concrete three-invocation trace. -/
theorem c2_witness :
    requestChunkIndices (runTrace
        [Invocation.chunkSent [1, 2] 0, Invocation.chunkRecv [3] 0,
         Invocation.chunkSent [] 1]
        ⟨tableNames, [], [], 1, fun _ => none, 0⟩ (ctx_factory "aa" 0)).1.committed =
      List.range (countSent
        [Invocation.chunkSent [1, 2] 0, Invocation.chunkRecv [3] 0,
         Invocation.chunkSent [] 1]) ∧
    responseChunkIndices (runTrace
        [Invocation.chunkSent [1, 2] 0, Invocation.chunkRecv [3] 0,
         Invocation.chunkSent [] 1]
        ⟨tableNames, [], [], 1, fun _ => none, 0⟩ (ctx_factory "aa" 0)).1.committed =
      List.range (countRecv
        [Invocation.chunkSent [1, 2] 0, Invocation.chunkRecv [3] 0,
         Invocation.chunkSent [] 1]) :=
  c2_chunk_index_sequences
    [Invocation.chunkSent [1, 2] 0, Invocation.chunkRecv [3] 0,
     Invocation.chunkSent [] 1]
    "aa" 0 ⟨tableNames, [], [], 1, fun _ => none, 0⟩ (fun _ => rfl) rfl rfl

/-- Claim C3: every successful handler invocation appends exactly one
event-log row and exactly one detail row to the durable store; the detail
row references the event row's generated identifier, lives in the table
named by the event row's `event_type` (never in `events`), the event row
carries the context's correlation id, both rows land in one commit, and
nothing previously committed is updated or deleted. -/
theorem c3_event_detail_pairing (i : Invocation) (c : Conn) (ctx : Ctx)
    (h : NoFail c) :
    ∃ er d, (runHandler i c ctx).1 = .ok () ∧
      (runHandler i c ctx).2.1.committed =
        c.committed ++ (c.pending ++ [Row.events er] ++ [d]) ∧
      (runHandler i c ctx).2.1.pending = [] ∧
      er.id = c.nextEventId ∧ er.request_id = ctx.request_id ∧
      d.eventRef = er.id ∧ d.table = er.event_type ∧ d.table ≠ "events" := by
  cases i with
  | start method url headers now =>
    exact ⟨⟨c.nextEventId, now, ctx.request_id, "request_start"⟩,
      Row.request_start c.nextEventId method url (serialize_headers headers),
      by simp [runHandler, on_request_start_ok c ctx method url headers now h,
        Row.table, Row.eventRef]⟩
  | finish status reason headers nE nI =>
    exact ⟨⟨c.nextEventId, nI, ctx.request_id, "request_end"⟩,
      Row.request_end c.nextEventId status reason (serialize_headers headers)
        (nE - ctx.started),
      by simp [runHandler, on_request_end_ok c ctx status reason headers nE nI h,
        Row.table, Row.eventRef]⟩
  | excn t now =>
    exact ⟨⟨c.nextEventId, now, ctx.request_id, "request_exception"⟩,
      Row.request_exception c.nextEventId t,
      by simp [runHandler, on_request_exception_ok c ctx t now h,
        Row.table, Row.eventRef]⟩
  | chunkSent chunk now =>
    exact ⟨⟨c.nextEventId, now, ctx.request_id, "request_chunk"⟩,
      Row.request_chunk c.nextEventId ctx.request_chunk_index chunk.length chunk,
      by simp [runHandler, on_request_chunk_sent_ok c ctx chunk now h,
        Row.table, Row.eventRef]⟩
  | chunkRecv chunk now =>
    exact ⟨⟨c.nextEventId, now, ctx.request_id, "response_chunk"⟩,
      Row.response_chunk c.nextEventId ctx.response_chunk_index chunk.length chunk,
      by simp [runHandler, on_response_chunk_received_ok c ctx chunk now h,
        Row.table, Row.eventRef]⟩

/-- Witness for C3 at a concrete start invocation. -/
theorem c3_witness :
    ∃ er d, (runHandler (Invocation.start "GET" "https://example.com" [] 0)
        ⟨tableNames, [], [], 1, fun _ => none, 0⟩ (ctx_factory "bb" 0)).1 = .ok () ∧
      (runHandler (Invocation.start "GET" "https://example.com" [] 0)
          ⟨tableNames, [], [], 1, fun _ => none, 0⟩ (ctx_factory "bb" 0)).2.1.committed =
        ([] : List Row) ++ (([] : List Row) ++ [Row.events er] ++ [d]) ∧
      (runHandler (Invocation.start "GET" "https://example.com" [] 0)
          ⟨tableNames, [], [], 1, fun _ => none, 0⟩ (ctx_factory "bb" 0)).2.1.pending = [] ∧
      er.id = 1 ∧ er.request_id = (ctx_factory "bb" 0).request_id ∧
      d.eventRef = er.id ∧ d.table = er.event_type ∧ d.table ≠ "events" :=
  c3_event_detail_pairing (Invocation.start "GET" "https://example.com" [] 0)
    ⟨tableNames, [], [], 1, fun _ => none, 0⟩ (ctx_factory "bb" 0) (fun _ => rfl)

/-- Claim C4: serializing any ordered header pair list (duplicates allowed)
and deserializing the result yields exactly the original list, provided the
strings consist of Unicode scalar values. -/
theorem c4_header_round_trip (hs : List (PyStr × PyStr))
    (h : ∀ p ∈ hs, (∀ c ∈ p.1, ScalarCP c) ∧ (∀ c ∈ p.2, ScalarCP c)) :
    deserialize_headers (serialize_headers hs) = some hs := by
  cases hs with
  | nil => rfl
  | cons p t =>
    obtain ⟨n, v⟩ := p
    have hn := (h (n, v) (by simp)).1
    have hv := (h (n, v) (by simp)).2
    have ht : ∀ q ∈ t, (∀ c ∈ q.1, ScalarCP c) ∧ (∀ c ∈ q.2, ScalarCP c) :=
      fun q hq => h q (by simp [hq])
    have e1 : serialize_headers ((n, v) :: t) =
        0x5B :: 0x5B :: 0x22 :: (escape n ++ 0x22 :: 0x2C :: 0x20 :: 0x22 ::
          (escape v ++ 0x22 :: 0x5D :: (encRest t ++ 0x5D :: []))) := by
      simp [serialize_headers, encPair, List.append_assoc]
    have hfuel : t.length <
        (0x5B :: 0x5B :: 0x22 :: (escape n ++ 0x22 :: 0x2C :: 0x20 :: 0x22 ::
          (escape v ++ 0x22 :: 0x5D :: (encRest t ++ 0x5D :: [])))).length := by
      have := encRest_length t
      simp only [List.length_cons, List.length_append]
      omega
    rw [e1]
    simp only [deserialize_headers, parsePair]
    rw [parseStr_escape n hn]
    simp only []
    rw [parseStr_escape v hv]
    simp only []
    rw [parsePairsRest_encRest t ht _ hfuel []]
    simp

/-- Witness for C4 on a concrete list with a duplicate name, quotes,
control characters, non-ASCII and astral code points. -/
theorem c4_witness :
    deserialize_headers (serialize_headers
      [([0x61], [0x62]), ([0x61], [0x2603]),
       ([0x78, 0x22], [0x6C, 0x0A, 0x5C]), ([0x1F600], [0x09])]) =
    some [([0x61], [0x62]), ([0x61], [0x2603]),
          ([0x78, 0x22], [0x6C, 0x0A, 0x5C]), ([0x1F600], [0x09])] :=
  c4_header_round_trip
    [([0x61], [0x62]), ([0x61], [0x2603]),
     ([0x78, 0x22], [0x6C, 0x0A, 0x5C]), ([0x1F600], [0x09])] (by decide)

/-- Claim C5, counterexample: `elapsed` is computed as the wall-clock
reading minus the recorded start time with no clamping, so when the clock
reads 7 for a context started at 10 the committed `request_end` row carries
elapsed = −3 < 0, refuting "always ≥ 0". -/
theorem c5_counterexample :
    (on_request_end ⟨tableNames, [], [], 1, fun _ => none, 0⟩ (ctx_factory "x" 10)
        200 none [] 7 8).2.1.committed =
      [Row.events ⟨1, 8, "x", "request_end"⟩,
       Row.request_end 1 200 none [0x5B, 0x5D] ((7 : Rat) - 10)] ∧
    ((7 : Rat) - 10 < 0) := by
  constructor
  · rfl
  · norm_num

/-- Claim C5 (amended): the elapsed value written to the `request_end` row
equals the wall-clock reading at handler invocation minus the context's
recorded start time; it is ≥ 0 exactly when that reading is not earlier
than the start time (the wall clock may move backwards). -/
theorem c5_elapsed (c : Conn) (ctx : Ctx) (status : Int) (reason : Option String)
    (headers : List (PyStr × PyStr)) (nE nI : Rat) (h : NoFail c) :
    (on_request_end c ctx status reason headers nE nI).2.1.committed =
      c.committed ++ (c.pending ++
        [Row.events ⟨c.nextEventId, nI, ctx.request_id, "request_end"⟩] ++
        [Row.request_end c.nextEventId status reason (serialize_headers headers)
          (nE - ctx.started)]) ∧
    (ctx.started ≤ nE → 0 ≤ nE - ctx.started) := by
  refine ⟨by simp [on_request_end_ok c ctx status reason headers nE nI h], ?_⟩
  intro hle
  linarith

/-- Witness for C5's amended theorem at a concrete invocation whose clock
reading follows the start time. -/
theorem c5_witness :
    (on_request_end ⟨tableNames, [], [], 1, fun _ => none, 0⟩ (ctx_factory "x" 10)
        200 none [] 12 13).2.1.committed =
      ([] : List Row) ++ (([] : List Row) ++
        [Row.events ⟨1, 13, (ctx_factory "x" 10).request_id, "request_end"⟩] ++
        [Row.request_end 1 200 none (serialize_headers [])
          (12 - (ctx_factory "x" 10).started)]) ∧
    (0 : Rat) ≤ 12 - (ctx_factory "x" 10).started :=
  ⟨(c5_elapsed ⟨tableNames, [], [], 1, fun _ => none, 0⟩ (ctx_factory "x" 10)
      200 none [] 12 13 (fun _ => rfl)).1,
   (c5_elapsed ⟨tableNames, [], [], 1, fun _ => none, 0⟩ (ctx_factory "x" 10)
      200 none [] 12 13 (fun _ => rfl)).2 (by norm_num [ctx_factory])⟩

/-- Claim C6: schema initialization ensures the six listed tables exist,
a repeated call is a no-op on the whole connection state (same schema, no
duplicate tables, and — `CREATE TABLE IF NOT EXISTS` — no error), and it
preserves absence of duplicate tables. -/
theorem c6_init_sqlite_idempotent (c : Conn) :
    (∀ n ∈ tableNames, n ∈ (init_sqlite c).tables) ∧
    init_sqlite (init_sqlite c) = init_sqlite c ∧
    (c.tables.Nodup → (init_sqlite c).tables.Nodup) := by
  refine ⟨fun n hn => mem_foldl_createTable _ _ _ hn, ?_, ?_⟩
  · obtain ⟨t, co, p, ne, f, o⟩ := c
    simp [init_sqlite,
      foldl_createTable_of_all_mem tableNames _
        (fun n hn => mem_foldl_createTable tableNames t n hn)]
  · intro hnd
    exact nodup_foldl_createTable _ _ hnd

/-- Witness for C6 at a concrete fresh connection. -/
theorem c6_witness :
    "events" ∈ (init_sqlite ⟨[], [], [], 1, fun _ => none, 0⟩).tables ∧
    init_sqlite (init_sqlite ⟨[], [], [], 1, fun _ => none, 0⟩) =
      init_sqlite ⟨[], [], [], 1, fun _ => none, 0⟩ ∧
    (init_sqlite ⟨[], [], [], 1, fun _ => none, 0⟩).tables.Nodup :=
  ⟨(c6_init_sqlite_idempotent ⟨[], [], [], 1, fun _ => none, 0⟩).1 "events" (by decide),
   (c6_init_sqlite_idempotent ⟨[], [], [], 1, fun _ => none, 0⟩).2.1,
   (c6_init_sqlite_idempotent ⟨[], [], [], 1, fun _ => none, 0⟩).2.2 (by decide)⟩

/-- Claim C7: the context factory is a total pure construction whose output
carries the supplied fresh correlation id, the supplied current timestamp
as start time, and both chunk counters at 0; distinct generated ids give
contexts with distinct correlation ids. -/
theorem c7_ctx_factory_contract (u : String) (t : Rat) :
    (ctx_factory u t).request_id = u ∧
    (ctx_factory u t).started = t ∧
    (ctx_factory u t).request_chunk_index = 0 ∧
    (ctx_factory u t).response_chunk_index = 0 ∧
    (∀ u2 t2, u ≠ u2 →
      (ctx_factory u t).request_id ≠ (ctx_factory u2 t2).request_id) := by
  refine ⟨rfl, rfl, rfl, rfl, fun u2 t2 hne => ?_⟩
  simpa [ctx_factory] using hne

/-- Witness for C7 at two concrete distinct generated ids. -/
theorem c7_witness :
    (ctx_factory "a" 0).request_id = "a" ∧
    (ctx_factory "a" 0).request_id ≠ (ctx_factory "b" 1).request_id :=
  ⟨(c7_ctx_factory_contract "a" 0).1,
   (c7_ctx_factory_contract "a" 0).2.2.2.2 "b" 1 (by decide)⟩

/-- Claim C8: (1) any error a handler invocation returns is verbatim a
storage-oracle error — no handler catches, retries or rewrites it; (2) no
invocation ever removes or rewrites previously committed rows; (3) handlers
leave the failure oracle in place and only advance the operation counter;
(4) an invocation on a connection whose oracle is clean from its current
operation counter onwards succeeds — so a failed write in one invocation
does not prevent later invocations (same or different context) from
recording their events. -/
theorem c8_error_propagation :
    (∀ i c ctx e, (runHandler i c ctx).1 = .error e → ∃ k, c.failAt k = some e) ∧
    (∀ i c ctx, ∃ tail, (runHandler i c ctx).2.1.committed = c.committed ++ tail) ∧
    (∀ i c ctx, (runHandler i c ctx).2.1.failAt = c.failAt ∧
      c.opCount ≤ (runHandler i c ctx).2.1.opCount) ∧
    (∀ i c ctx, (∀ n, c.opCount ≤ n → c.failAt n = none) →
      (runHandler i c ctx).1 = .ok ()) := by
  refine ⟨runHandler_error, runHandler_committed_mono, runHandler_conn_frame, ?_⟩
  intro i c ctx hc
  exact runHandler_ok_of_clean i c ctx (hc _ (Nat.le_refl _))
    (hc _ (Nat.le_add_right _ _)) (hc _ (Nat.le_add_right _ _))

/-- Witness for C8: a handler on an always-failing oracle surfaces that
oracle's error, and a handler on a clean oracle succeeds. -/
theorem c8_witness :
    (∃ k, (⟨tableNames, [], [], 1, fun _ => some "boom", 0⟩ : Conn).failAt k =
      some "boom") ∧
    (runHandler (Invocation.excn "E" 0) ⟨tableNames, [], [], 1, fun _ => none, 0⟩
      (ctx_factory "u" 0)).1 = .ok () :=
  ⟨c8_error_propagation.1 (Invocation.excn "E" 0)
      ⟨tableNames, [], [], 1, fun _ => some "boom", 0⟩ (ctx_factory "u" 0) "boom" rfl,
   c8_error_propagation.2.2.2 (Invocation.excn "E" 0)
      ⟨tableNames, [], [], 1, fun _ => none, 0⟩ (ctx_factory "u" 0) (fun _ _ => rfl)⟩

/-- Claim C9: constructing the recorder registers exactly one handler per
lifecycle hook, each bound to the supplied storage handle, backed by the
shared context factory; the constructor returns the handle untouched and
no handler's action log ever contains a connection open or close. -/
theorem c9_recorder_wiring (conn : Conn) :
    (mkRecorder conn).trace_config.on_request_start_hooks =
      [⟨.request_start, conn⟩] ∧
    (mkRecorder conn).trace_config.on_request_end_hooks =
      [⟨.request_end, conn⟩] ∧
    (mkRecorder conn).trace_config.on_request_exception_hooks =
      [⟨.request_exception, conn⟩] ∧
    (mkRecorder conn).trace_config.on_request_chunk_sent_hooks =
      [⟨.request_chunk_sent, conn⟩] ∧
    (mkRecorder conn).trace_config.on_response_chunk_received_hooks =
      [⟨.response_chunk_received, conn⟩] ∧
    (mkRecorder conn).trace_config.trace_config_ctx_factory = ctx_factory ∧
    (mkRecorder conn).conn = conn ∧
    (∀ i c ctx, Action.connOpen ∉ (runHandler i c ctx).2.2.2 ∧
      Action.connClose ∉ (runHandler i c ctx).2.2.2) := by
  refine ⟨rfl, rfl, rfl, rfl, rfl, rfl, rfl, ?_⟩
  intro i c ctx
  constructor <;>
    (cases i <;>
      (simp only [runHandler, on_request_start, on_request_end, on_request_exception,
        on_request_chunk_sent, on_response_chunk_received]
       repeat' split) <;>
      simp)

/-- Claim C10: the start, end and exception handlers return the context
unchanged in every case; the chunk handlers never change the correlation
id, the start time, or the other direction's counter, and on a successful
invocation increment their own counter by exactly one. -/
theorem c10_handler_frame :
    (∀ c ctx method url headers now,
      (on_request_start c ctx method url headers now).2.2.1 = ctx) ∧
    (∀ c ctx status reason headers nE nI,
      (on_request_end c ctx status reason headers nE nI).2.2.1 = ctx) ∧
    (∀ c ctx t now, (on_request_exception c ctx t now).2.2.1 = ctx) ∧
    (∀ c ctx chunk now,
      ((on_request_chunk_sent c ctx chunk now).2.2.1.request_id = ctx.request_id ∧
       (on_request_chunk_sent c ctx chunk now).2.2.1.started = ctx.started ∧
       (on_request_chunk_sent c ctx chunk now).2.2.1.response_chunk_index =
         ctx.response_chunk_index) ∧
      (NoFail c → (on_request_chunk_sent c ctx chunk now).2.2.1.request_chunk_index =
        ctx.request_chunk_index + 1)) ∧
    (∀ c ctx chunk now,
      ((on_response_chunk_received c ctx chunk now).2.2.1.request_id = ctx.request_id ∧
       (on_response_chunk_received c ctx chunk now).2.2.1.started = ctx.started ∧
       (on_response_chunk_received c ctx chunk now).2.2.1.request_chunk_index =
         ctx.request_chunk_index) ∧
      (NoFail c → (on_response_chunk_received c ctx chunk now).2.2.1.response_chunk_index =
        ctx.response_chunk_index + 1)) := by
  refine ⟨?_, ?_, ?_, ?_, ?_⟩
  · intro c ctx method url headers now
    simp only [on_request_start]
    repeat' split
    all_goals rfl
  · intro c ctx status reason headers nE nI
    simp only [on_request_end]
    repeat' split
    all_goals rfl
  · intro c ctx t now
    simp only [on_request_exception]
    repeat' split
    all_goals rfl
  · intro c ctx chunk now
    refine ⟨?_, fun h => by simp [on_request_chunk_sent_ok c ctx chunk now h]⟩
    simp only [on_request_chunk_sent]
    repeat' split
    all_goals simp
  · intro c ctx chunk now
    refine ⟨?_, fun h => by simp [on_response_chunk_received_ok c ctx chunk now h]⟩
    simp only [on_response_chunk_received]
    repeat' split
    all_goals simp

/-- Witness for C10 at a concrete non-failing chunk invocation. -/
theorem c10_witness :
    (on_request_chunk_sent ⟨tableNames, [], [], 1, fun _ => none, 0⟩
        (ctx_factory "w" 0) [5] 1).2.2.1.request_chunk_index =
      (ctx_factory "w" 0).request_chunk_index + 1 :=
  (c10_handler_frame.2.2.2.1 ⟨tableNames, [], [], 1, fun _ => none, 0⟩
    (ctx_factory "w" 0) [5] 1).2 (fun _ => rfl)

end STrace
